import Mathlib

/-!
Verification of the Transaction Extraction & Reconciliation Engine
(`src/api/index.js` of the actual-budget-ingest service).

The JavaScript source is shallowly embedded below: every pure helper of the
source becomes a Lean function on `String` / `List Char` / `Int` / `ℚ`;
the stateful catalog cache becomes explicit state passing; the two external
network services (the Actual Budget ledger API and the Ollama inference
endpoint) are modelled by explicit result environments and by a `parse`
function argument standing for `JSON.parse`.  JavaScript strings are
modelled as Lean `String`s (sequences of characters), and JavaScript
numbers that the code treats as exact quantities are modelled as `ℚ` / `ℤ`.
-/

namespace Ingest

/-- The `\x7b` character (opening curly brace). -/
def lbrace : Char := Char.ofNat 123

/-- The `\x7d` character (closing curly brace). -/
def rbrace : Char := Char.ofNat 125

/-- Whitespace class of the JavaScript regexes (`\s`) and of `String.trim`,
restricted to the ASCII range that the service ever sees. -/
def isJsSpace (c : Char) : Bool :=
  c = ' ' || c = '\t' || c = '\n' || c = '\r' || c = Char.ofNat 11 || c = Char.ofNat 12

/-- `leadsWith pat l` is true when `pat` is an initial segment of `l`
(JavaScript `String.prototype.startsWith` on character lists). -/
def leadsWith : List Char → List Char → Bool
  | a :: as, b :: bs => a = b && leadsWith as bs
  | pat, _ => pat.isEmpty

/-- `containsSub l pat` is true when `pat` occurs contiguously inside `l`
(JavaScript `String.prototype.includes` on character lists). -/
def containsSub : List Char → List Char → Bool
  | [], pat => pat.isEmpty
  | l@(_ :: rest), pat => leadsWith pat l || containsSub rest pat

/-- JavaScript `s.includes(sub)`. -/
def jsIncludes (s sub : String) : Bool :=
  containsSub s.data sub.data

/-- JavaScript `s.toLowerCase()` for the ASCII range: lowercase every
character. -/
def lowerStr (s : String) : String :=
  ⟨s.data.map Char.toLower⟩

/-- JavaScript `s.trim()`: drop whitespace from both ends. -/
def trimStr (s : String) : String :=
  ⟨((s.data.dropWhile isJsSpace).reverse.dropWhile isJsSpace).reverse⟩

/-- JavaScript `body.split("\n")` (on character lists). -/
def splitLines : List Char → List (List Char)
  | [] => [[]]
  | c :: rest =>
    if c = '\n' then [] :: splitLines rest
    else
      match splitLines rest with
      | [] => [[c]]
      | g :: gs => (c :: g) :: gs

/-- `name.replace(/[*\s]/g, '')` — remove asterisks and whitespace. -/
def stripStarWs (s : String) : String :=
  ⟨s.data.filter (fun c => !(c = '*' || isJsSpace c))⟩

/-- An account of the Actual Budget catalog (`{id, name, closed}`). -/
structure Account where
  id : String
  name : String
  closed : Bool
deriving DecidableEq, Repr

/-- A category of the Actual Budget catalog (`{id, name, hidden}`). -/
structure Category where
  id : String
  name : String
  hidden : Bool
deriving DecidableEq, Repr

/-- Stage 1 of `matchAccount`:
`a.name.toLowerCase() === accountName?.toLowerCase()`.
When `accountName` is `null` the optional chaining yields `undefined` and
the strict equality with a string is false. -/
def exactPred (label : Option String) (a : Account) : Bool :=
  match label with
  | none => false
  | some l => lowerStr a.name = lowerStr l

/-- Stage 2 of `matchAccount` (the predicate of the second `find`):
`a.name.toLowerCase().includes(accountName.toLowerCase()) ||
 accountName.toLowerCase().includes(a.name.toLowerCase().replace(/[*\s]/g, ''))`. -/
def stage2Pred (l : String) (a : Account) : Bool :=
  jsIncludes (lowerStr a.name) (lowerStr l) ||
    jsIncludes (lowerStr l) (stripStarWs (lowerStr a.name))

/-- The scan of the global regex `/\d{4}/g`: at each position try to match
four digit characters; on success emit them and resume after the match, on
failure advance one character. -/
def scan4 : List Char → List (List Char)
  | a :: b :: c :: d :: rest =>
    if a.isDigit && b.isDigit && c.isDigit && d.isDigit
    then [a, b, c, d] :: scan4 rest
    else scan4 (b :: c :: d :: rest)
  | _ => []

/-- `extractDigits(str)`: `str.match(/\d{4}/g)` with `null` mapped to `[]`. -/
def extractDigits (s : String) : List String :=
  (scan4 s.data).map (fun l => (⟨l⟩ : String))

/-- The digit-fallback loop of `matchAccount`: for each extracted digit run,
in order, return the first catalog account whose name contains it. -/
def digitFallback (accounts : List Account) : List String → Option Account
  | [] => none
  | d :: ds =>
    match accounts.find? (fun a => jsIncludes a.name d) with
    | some a => some a
    | none => digitFallback accounts ds

/-- `matchAccount(accountName, sms)` over an explicit catalog (the source
reads the module-level `actualAccounts`).  Stage 1: case-insensitive exact
equality.  Stage 2 (only when `accountName` is truthy, i.e. a non-empty
string): the substring test `stage2Pred`.  Stage 3: digit fallback over the
four-digit runs of the SMS text. -/
def matchAccount (accounts : List Account) (accountName : Option String)
    (sms : String) : Option Account :=
  match accounts.find? (exactPred accountName) with
  | some a => some a
  | none =>
    match accountName with
    | some l =>
      if l = "" then digitFallback accounts (extractDigits sms)
      else
        match accounts.find? (stage2Pred l) with
        | some a => some a
        | none => digitFallback accounts (extractDigits sms)
    | none => digitFallback accounts (extractDigits sms)

/-- `categoryName.toLowerCase().replace(/[^\w\s]/g, '')` — lowercase and
remove every character that is neither alphanumeric, underscore nor
whitespace. -/
def normCat (s : String) : String :=
  ⟨(lowerStr s).data.filter (fun c => c.isAlphanum || c = '_' || isJsSpace c)⟩

/-- `matchCategory(categoryName)` over an explicit catalog. -/
def matchCategory (categories : List Category) (categoryName : Option String) :
    Option Category :=
  match categoryName with
  | none => none
  | some l =>
    if l = "" then none
    else
      match categories.find? (fun c => lowerStr c.name = lowerStr l) with
      | some c => some c
      | none =>
        categories.find? (fun c =>
          jsIncludes (normCat c.name) (normCat l) ||
            jsIncludes (normCat l) (normCat c.name))

/-! ### SHA-256 (`crypto.createHash("sha256")`), executable over `Nat` words -/

/-- Reduce to a 32-bit word. -/
def w32 (n : Nat) : Nat := n % 4294967296

/-- 32-bit addition. -/
def add32 (a b : Nat) : Nat := w32 (a + b)

/-- 32-bit right rotation by `n`. -/
def rotr32 (n x : Nat) : Nat := w32 ((x >>> n) ||| (x <<< (32 - n)))

/-- 32-bit complement (for words below `2 ^ 32`). -/
def bnot32 (x : Nat) : Nat := x ^^^ 4294967295

/-- SHA-256 `Ch(e, f, g)`. -/
def shaCh (e f g : Nat) : Nat := (e &&& f) ^^^ (bnot32 e &&& g)

/-- SHA-256 `Maj(a, b, c)`. -/
def shaMaj (a b c : Nat) : Nat := (a &&& b) ^^^ (a &&& c) ^^^ (b &&& c)

/-- SHA-256 `Σ0`. -/
def bigSigma0 (x : Nat) : Nat := rotr32 2 x ^^^ rotr32 13 x ^^^ rotr32 22 x

/-- SHA-256 `Σ1`. -/
def bigSigma1 (x : Nat) : Nat := rotr32 6 x ^^^ rotr32 11 x ^^^ rotr32 25 x

/-- SHA-256 `σ0`. -/
def smallSigma0 (x : Nat) : Nat := rotr32 7 x ^^^ rotr32 18 x ^^^ (x >>> 3)

/-- SHA-256 `σ1`. -/
def smallSigma1 (x : Nat) : Nat := rotr32 17 x ^^^ rotr32 19 x ^^^ (x >>> 10)

/-- The 64 SHA-256 round constants (decimal). -/
def shaK : List Nat :=
  [1116352408, 1899447441, 3049323471, 3921009573, 961987163, 1508970993,
   2453635748, 2870763221, 3624381080, 310598401, 607225278, 1426881987,
   1925078388, 2162078206, 2614888103, 3248222580, 3835390401, 4022224774,
   264347078, 604807628, 770255983, 1249150122, 1555081692, 1996064986,
   2554220882, 2821834349, 2952996808, 3210313671, 3336571891, 3584528711,
   113926993, 338241895, 666307205, 773529912, 1294757372, 1396182291,
   1695183700, 1986661051, 2177026350, 2456956037, 2730485921, 2820302411,
   3259730800, 3345764771, 3516065817, 3600352804, 4094571909, 275423344,
   430227734, 506948616, 659060556, 883997877, 958139571, 1322822218,
   1537002063, 1747873779, 1955562222, 2024104815, 2227730452, 2361852424,
   2428436474, 2756734187, 3204031479, 3329325298]

/-- The eight 32-bit words of a SHA-256 state. -/
structure Sha8 where
  a : Nat
  b : Nat
  c : Nat
  d : Nat
  e : Nat
  f : Nat
  g : Nat
  h : Nat
deriving DecidableEq, Repr

/-- The SHA-256 initial hash value (decimal). -/
def shaInit : Sha8 :=
  ⟨1779033703, 3144134277, 1013904242, 2773480762,
   1359893119, 2600822924, 528734635, 1541459225⟩

/-- Extend the 16 words of a block to the 64-word message schedule. -/
def buildW (block : List Nat) : List Nat :=
  (List.range 48).foldl
    (fun ws _ =>
      let n := ws.length
      ws ++ [add32 (add32 (smallSigma1 (ws.getD (n - 2) 0)) (ws.getD (n - 7) 0))
               (add32 (smallSigma0 (ws.getD (n - 15) 0)) (ws.getD (n - 16) 0))])
    block

/-- One SHA-256 compression round on the working variables `a..h` with
input `(kᵢ, wᵢ)`. -/
def shaRound (st : Sha8) (kw : Nat × Nat) : Sha8 :=
  let t1 := add32 (add32 (add32 st.h (bigSigma1 st.e)) (add32 (shaCh st.e st.f st.g) kw.1)) kw.2
  let t2 := add32 (bigSigma0 st.a) (shaMaj st.a st.b st.c)
  ⟨add32 t1 t2, st.a, st.b, st.c, add32 st.d t1, st.e, st.f, st.g⟩

/-- Compress one 16-word block into the running hash. -/
def processBlock (hv : Sha8) (block : List Nat) : Sha8 :=
  let w := buildW block
  let fin := (shaK.zip w).foldl shaRound hv
  ⟨add32 hv.a fin.a, add32 hv.b fin.b, add32 hv.c fin.c, add32 hv.d fin.d,
   add32 hv.e fin.e, add32 hv.f fin.f, add32 hv.g fin.g, add32 hv.h fin.h⟩

/-- UTF-8 encoding of one character (the `utf8` encoding used by
`hash.update(string)` in Node). -/
def utf8Bytes (c : Char) : List Nat :=
  let n := c.toNat
  if n < 0x80 then [n]
  else if n < 0x800 then
    [0xc0 ||| (n >>> 6), 0x80 ||| (n &&& 0x3f)]
  else if n < 0x10000 then
    [0xe0 ||| (n >>> 12), 0x80 ||| ((n >>> 6) &&& 0x3f), 0x80 ||| (n &&& 0x3f)]
  else
    [0xf0 ||| (n >>> 18), 0x80 ||| ((n >>> 12) &&& 0x3f),
     0x80 ||| ((n >>> 6) &&& 0x3f), 0x80 ||| (n &&& 0x3f)]

/-- SHA-256 padding: append `0x80`, zeros up to 56 mod 64, and the 64-bit
big-endian bit length. -/
def padBytes (msg : List Nat) : List Nat :=
  let len := msg.length
  let zeros := (64 + 55 - len % 64) % 64
  msg ++ [0x80] ++ List.replicate zeros 0 ++
    (List.range 8).map (fun i => ((len * 8) >>> (56 - 8 * i)) % 256)

/-- Split a byte list into 64-byte chunks. -/
def chunk64 (l : List Nat) : List (List Nat) :=
  if h : l = [] then []
  else l.take 64 :: chunk64 (l.drop 64)
termination_by l.length
decreasing_by
  simp only [List.length_drop]
  have : 0 < l.length := List.length_pos.mpr h
  omega

/-- Assemble a 64-byte chunk into 16 big-endian 32-bit words. -/
def wordsOfBlock (bytes : List Nat) : List Nat :=
  (List.range 16).map (fun i =>
    bytes.getD (4 * i) 0 * 16777216 + bytes.getD (4 * i + 1) 0 * 65536 +
      bytes.getD (4 * i + 2) 0 * 256 + bytes.getD (4 * i + 3) 0)

/-- The sixteen hexadecimal digit characters `0`-`9`, `a`-`f`. -/
def hexChars : List Char :=
  (List.range 10).map (fun i => Char.ofNat (48 + i)) ++
    (List.range 6).map (fun i => Char.ofNat (97 + i))

/-- Render a 32-bit word as exactly eight lowercase hex characters. -/
def toHex8 (n : Nat) : List Char :=
  (List.range 8).map (fun i => hexChars.getD ((n >>> (28 - 4 * i)) % 16) '0')

/-- The final SHA-256 state of the UTF-8 bytes of `s`. -/
def sha256state (s : String) : Sha8 :=
  let bytes := s.data.foldr (fun c acc => utf8Bytes c ++ acc) []
  (chunk64 (padBytes bytes)).foldl
    (fun hv b => processBlock hv (wordsOfBlock b)) shaInit

/-- The lowercase hex digest of SHA-256 of the UTF-8 bytes of `s`,
as a character list. -/
def sha256hexChars (s : String) : List Char :=
  let fin := sha256state s
  toHex8 fin.a ++ toHex8 fin.b ++ toHex8 fin.c ++ toHex8 fin.d ++
    toHex8 fin.e ++ toHex8 fin.f ++ toHex8 fin.g ++ toHex8 fin.h

/-- `sha256(s)` of the source: `crypto.createHash("sha256").update(s).digest("hex")`. -/
def sha256hex (s : String) : String := ⟨sha256hexChars s⟩

/-! ### Transaction building -/

/-- Decimal digits of a natural number, most significant first
(`natDecDigits 0 = ['0']`). -/
def natDecDigits (n : Nat) : List Char :=
  if n < 10 then [hexChars.getD n '0']
  else natDecDigits (n / 10) ++ [hexChars.getD (n % 10) '0']
termination_by n
decreasing_by omega

/-- Decimal rendering of an integer — the string produced for a JavaScript
integer-valued number by a template literal such as a backtick-quoted
`${amountInt}`. -/
def intDecimal (i : Int) : String :=
  match i with
  | .ofNat n => ⟨natDecDigits n⟩
  | .negSucc m => ⟨'-' :: natDecDigits (m + 1)⟩

/-- The preimage string hashed for the idempotency key:
the backtick template `${sms}||${finalDate}||${amountInt}||${description ?? ""}`. -/
def keyPreimage (sms finalDate : String) (amountInt : Int)
    (description : Option String) : String :=
  sms ++ "||" ++ finalDate ++ "||" ++ intDecimal amountInt ++ "||" ++ description.getD ""

/-- The idempotency key:
`sha256(...).slice(0, 32)` — the first 32 hex characters of the digest. -/
def idKey (sms finalDate : String) (amountInt : Int)
    (description : Option String) : String :=
  ⟨(sha256hexChars (keyPreimage sms finalDate amountInt description)).take 32⟩

/-- `toMinorUnits(amount)`: `Math.round(amount * 100)`, on exact rationals.
`Math.round` rounds half toward positive infinity, which is Mathlib's
`round`. -/
def toMinorUnits (amount : ℚ) : ℤ := round (amount * 100)

/-- The final date of `importIntoActual`:
`date && date.length >= 10 ? date : todayISO(TIMEZONE)` —
the extracted date when it is a string of at least 10 characters
(an empty string is falsy), else the current calendar date `today`. -/
def finalDateOf (date : Option String) (today : String) : String :=
  match date with
  | some d => if 10 ≤ d.length then d else today
  | none => today

/-! ### The validated extraction and the import pipeline -/

/-- The validated model output (`validateParsed` result): each field is the
documented scalar or null. -/
structure Parsed where
  amount : Option ℚ
  description : Option String
  date : Option String
  account : Option String
  category : Option String
deriving DecidableEq, Repr

/-- The transaction record built by `importIntoActual` and handed to
`importTransactions`. -/
structure TxRecord where
  account : String
  date : String
  amount : Int
  payee_name : Option String
  category : Option String
  notes : String
  imported_id : String
  cleared : Bool
deriving DecidableEq, Repr

/-- Observable calls of the post-validation pipeline: account matching
(EntityMatcher), category matching, and the external ledger import. -/
inductive PipeEvent where
  | matchAccountCall
  | matchCategoryCall
  | importCall (accountId : String) (tx : TxRecord)
deriving DecidableEq, Repr

/-- `importIntoActual({sms, amount, description, date, account, category})`
over an explicit catalog, notes prefix (`IMPORT_NOTES_PREFIX`) and current
date.  Returns the `{finalDate, tx}` pair (the external `importTransactions`
result is opaque) together with the trace of external calls made.
`ensureActualReady` has already run in the route handler. -/
def importIntoActual (accounts : List Account) (categories : List Category)
    (notesTag today sms : String) (amount : ℚ)
    (description date accountLabel categoryLabel : Option String) :
    Except String (String × TxRecord) × List PipeEvent :=
  match matchAccount accounts accountLabel sms with
  | none =>
    (.error ("Could not match account \"" ++ accountLabel.getD "null" ++
      "\". Available: " ++ String.intercalate ", " (accounts.map (fun a => a.name))),
     [.matchAccountCall])
  | some account =>
    let categoryId :=
      match matchCategory categories categoryLabel with
      | some c => if c.id = "" then none else some c.id
      | none => none
    let finalDate := finalDateOf date today
    let amountInt := toMinorUnits amount
    let payee :=
      match description with
      | some d => if d = "" then none else some d
      | none => none
    let tx : TxRecord :=
      ⟨account.id, finalDate, amountInt, payee, categoryId,
        trimStr (notesTag ++ ": " ++ description.getD ""),
        "sms:" ++ idKey sms finalDate amountInt description, false⟩
    (.ok (finalDate, tx), [.matchAccountCall, .matchCategoryCall, .importCall account.id tx])

/-- The response of the `/ingest` route after validation succeeded. -/
inductive IngestReply where
  | ignored (parsed : Parsed)
  | imported (parsed : Parsed) (finalDate : String) (tx : TxRecord)
  | failed (msg : String)
deriving DecidableEq, Repr

/-- The `/ingest` handler from the point where `validateParsed` returned:
`if (parsed.amount === null) return res.json({ok: true, ignored: true, parsed});`
else run `importIntoActual` and answer with the import result. -/
def ingestAfterValidation (accounts : List Account) (categories : List Category)
    (notesTag today sms : String) (parsed : Parsed) :
    IngestReply × List PipeEvent :=
  match parsed.amount with
  | none => (.ignored parsed, [])
  | some amt =>
    match importIntoActual accounts categories notesTag today sms amt
        parsed.description parsed.date parsed.account parsed.category with
    | (.ok fdtx, ev) => (.imported parsed fdtx.1 fdtx.2, ev)
    | (.error m, ev) => (.failed m, ev)

/-! ### The catalog cache (`ensureActualReady`) -/

/-- The module-level mutable state: `actualReady`, `actualAccounts`,
`actualCategories`. -/
structure CacheState where
  actualReady : Bool
  actualAccounts : List Account
  actualCategories : List Category
deriving DecidableEq, Repr

/-- The Uninitialized cache: not ready, both lists empty. -/
def uninitCache : CacheState := ⟨false, [], []⟩

/-- Results of the four external ledger calls performed during
initialization (`init`, `downloadBudget`, `getAccounts`, `getCategories`),
each either succeeding or raising an error. -/
structure ActualEnv where
  initRes : Except String Unit
  downloadRes : Except String Unit
  accountsRes : Except String (List Account)
  categoriesRes : Except String (List Category)

/-- Observable external ledger calls of `ensureActualReady`. -/
inductive ExtEvent where
  | initCall
  | downloadCall
  | getAccountsCall
  | getCategoriesCall
  | shutdownCall
deriving DecidableEq, Repr

/-- The body of the `try` block of `ensureActualReady`: run the four
external calls in order, filter the catalogs, and fail when no active
account remains. -/
def tryInitCatalog (env : ActualEnv) :
    Except String (List Account × List Category) × List ExtEvent :=
  match env.initRes with
  | .error e => (.error e, [.initCall])
  | .ok _ =>
    match env.downloadRes with
    | .error e => (.error e, [.initCall, .downloadCall])
    | .ok _ =>
      match env.accountsRes with
      | .error e => (.error e, [.initCall, .downloadCall, .getAccountsCall])
      | .ok accounts =>
        let active := accounts.filter (fun a => !a.closed)
        if active.length = 0 then
          (.error "No active accounts found in Actual Budget",
           [.initCall, .downloadCall, .getAccountsCall])
        else
          match env.categoriesRes with
          | .error e =>
            (.error e, [.initCall, .downloadCall, .getAccountsCall, .getCategoriesCall])
          | .ok categories =>
            (.ok (active, categories.filter (fun c => !c.hidden && c.name != "")),
             [.initCall, .downloadCall, .getAccountsCall, .getCategoriesCall])

/-- `ensureActualReady()`: fast path when the cache is ready and holds at
least one account; otherwise run the `try` block; its `catch` forces a
(error-swallowing) `shutdown()`, resets all three globals, and re-raises. -/
def ensureActualReady (env : ActualEnv) (st : CacheState) :
    CacheState × Except String Unit × List ExtEvent :=
  if st.actualReady && st.actualAccounts.length > 0 then (st, .ok (), [])
  else
    match tryInitCatalog env with
    | (.ok ac, ev) => (⟨true, ac.1, ac.2⟩, .ok (), ev)
    | (.error e, ev) => (uninitCache, .error e, ev ++ [.shutdownCall])

/-! ### The model gateway (`ollamaChatText`) and response parser -/

/-- JSON values as produced by `JSON.parse`. -/
inductive Js where
  | null
  | bool (b : Bool)
  | num (n : Int)
  | str (s : String)
  | arr (elems : List Js)
  | obj (fields : List (String × Js))
deriving Repr

/-- Property access `j[k]` on a parsed object (`undefined` as `none`). -/
def jsGet (j : Js) (k : String) : Option Js :=
  match j with
  | .obj fields => (fields.find? (fun kv => kv.1 = k)).map (fun kv => kv.2)
  | _ => none

/-- `j?.message?.content`. -/
def jsContent (j : Js) : Option Js :=
  (jsGet j "message").bind (fun m => jsGet m "content")

/-- JSON string escaping of one character (as by `JSON.stringify` for the
characters the service handles). -/
def escChar (c : Char) : List Char :=
  if c = '"' then ['\\', '"'] else if c = '\\' then ['\\', '\\'] else [c]

mutual

/-- `JSON.stringify` of a parsed value. -/
def jsStringify : Js → String
  | .null => "null"
  | .bool true => "true"
  | .bool false => "false"
  | .num n => intDecimal n
  | .str s => "\"" ++ (⟨s.data.foldr (fun c acc => escChar c ++ acc) []⟩ : String) ++ "\""
  | .arr es => "[" ++ stringifyElems es ++ "]"
  | .obj fs => "\x7b" ++ stringifyFields fs ++ "\x7d"

/-- Comma-joined stringification of array elements. -/
def stringifyElems : List Js → String
  | [] => ""
  | [e] => jsStringify e
  | e :: es => jsStringify e ++ "," ++ stringifyElems es

/-- Comma-joined stringification of object fields. -/
def stringifyFields : List (String × Js) → String
  | [] => ""
  | [kv] => "\"" ++ kv.1 ++ "\":" ++ jsStringify kv.2
  | kv :: fs => "\"" ++ kv.1 ++ "\":" ++ jsStringify kv.2 ++ "," ++ stringifyFields fs

end

/-- The single-object branch of `ollamaChatText`: `obj?.message?.content`
returned as a string (`String(content ?? "")` for the remaining shapes). -/
def contentText (content : Option Js) : String :=
  match content with
  | some (.str c) => c
  | some (.obj fs) => jsStringify (.obj fs)
  | some (.arr es) => jsStringify (.arr es)
  | some (.num n) => intDecimal n
  | some (.bool true) => "true"
  | some (.bool false) => "false"
  | some .null => ""
  | none => ""

/-- The NDJSON assembly loop of `ollamaChatText`: for each line, skip it if
it does not parse; append `chunk?.message?.content` when it is a string;
stop after the first chunk whose `done` field is strictly `true`. -/
def assembleLines (parse : String → Option Js) : List String → String → String
  | [], acc => acc
  | l :: ls, acc =>
    match parse l with
    | none => assembleLines parse ls acc
    | some chunk =>
      let acc2 :=
        match jsContent chunk with
        | some (.str part) => acc ++ part
        | _ => acc
      match jsGet chunk "done" with
      | some (.bool true) => acc2
      | _ => assembleLines parse ls acc2

/-- `ollamaChatText` from the point where the transport succeeded and the
response body text is in hand; `parse` stands for `JSON.parse`, returning
`none` where the JavaScript function throws.  First try the whole body as
one JSON document; on failure fall back to line-by-line NDJSON assembly,
and raise the gateway error when nothing was assembled. -/
def ollamaChatText (parse : String → Option Js) (body : String) :
    Except String String :=
  match parse body with
  | some obj => .ok (contentText (jsContent obj))
  | none =>
    let lines := ((splitLines body.data).map (fun l => (⟨l⟩ : String))).filter
      (fun l => l ≠ "")
    let assembled := assembleLines parse lines ""
    if assembled = "" then
      .error "Failed to assemble model output from NDJSON stream"
    else .ok assembled

/-- The backtick character. -/
def btick : Char := Char.ofNat 96

/-- A triple-backtick fence marker. -/
def fenceTicks : List Char := [btick, btick, btick]

/-- Index of the first occurrence of `pat` in `l`, if any. -/
def findSubIdx (l pat : List Char) : Option Nat :=
  match l with
  | [] => if pat.isEmpty then some 0 else none
  | _ :: rest =>
    if leadsWith pat l then some 0 else (findSubIdx rest pat).map (fun i => i + 1)

/-- `stripCodeFences(s)`: the regex
`/` + "```" + `(?:json)?\s*([\s\S]*?)\s*` + "```" + `/i` — take the content of
the first fenced block (optionally tagged `json`, surrounding whitespace
stripped); if no fenced block matches, return `s` unchanged. -/
def stripCodeFences (s : String) : String :=
  match findSubIdx s.data fenceTicks with
  | none => s
  | some i =>
    let t := s.data.drop (i + 3)
    let afterTag := if (t.take 4).map Char.toLower = ['j', 's', 'o', 'n'] then t.drop 4 else t
    let t2 := afterTag.dropWhile isJsSpace
    match findSubIdx t2 fenceTicks with
    | none => s
    | some j => ⟨((t2.take j).reverse.dropWhile isJsSpace).reverse⟩

/-- Depth change contributed by one character of the brace scan. -/
def braceDelta (c : Char) : Int :=
  if c = lbrace then 1 else if c = rbrace then -1 else 0

/-- The character-by-character loop of `extractFirstJsonObjectString`:
starting at nesting depth `depth`, return the prefix up to and including the
character at which the depth returns to zero, or `none` when it never does. -/
def scanBrace : List Char → Int → Option (List Char)
  | [], _ => none
  | c :: rest, depth =>
    let d := depth + braceDelta c
    if d = 0 then some [c]
    else (scanBrace rest d).map (fun tail => c :: tail)

/-- `extractFirstJsonObjectString(s)`: find the first `\x7b`, then track brace
nesting until it balances; the two failure modes throw. -/
def extractFirstJsonObjectString (s : String) : Except String String :=
  let start := s.data.dropWhile (fun c => c ≠ lbrace)
  if start.isEmpty then .error "No '\x7b' found in model output"
  else
    match scanBrace start 0 with
    | some p => .ok ⟨p⟩
    | none => .error "Unterminated JSON object in model output"

/-- `parseModelJsonFromText(text)`: strip fences and trim, try a direct
parse, else parse exactly the first balanced brace substring.  The final
`JSON.parse` throw is modelled as a distinct syntax error. -/
def parseModelJsonFromText (parse : String → Option Js) (text : String) :
    Except String Js :=
  let stripped := trimStr (stripCodeFences text)
  match parse stripped with
  | some v => .ok v
  | none =>
    match extractFirstJsonObjectString stripped with
    | .error e => .error e
    | .ok objStr =>
      match parse objStr with
      | some v => .ok v
      | none => .error "SyntaxError: Unexpected token in JSON"

deriving instance DecidableEq for Except

/-! ### Specification-side definitions and verification helpers -/

/-- Decimal value of a digit string (left fold), used to invert
`natDecDigits`. -/
def decVal (l : List Char) : Nat :=
  l.foldl (fun acc c => 10 * acc + (c.toNat - 48)) 0

/-- Running brace-depth contribution of a character list. -/
def deltaSum (l : List Char) : Int :=
  (l.map braceDelta).sum

/-- The catalog name as the specification words of the stage-2 account
match describe it: lowercased, with punctuation and whitespace stripped
(everything that is not alphanumeric removed). -/
def specStripped (s : String) : String :=
  ⟨(lowerStr s).data.filter (fun c => c.isAlphanum)⟩

/-- The stage-2 account test exactly as the specification states it:
the stripped catalog name contains the label, or the label contains the
stripped catalog name, case-insensitively. -/
def stage2SpecMatch (name label : String) : Bool :=
  jsIncludes (specStripped name) (lowerStr label) ||
    jsIncludes (lowerStr label) (specStripped name)

/-- An NDJSON chunk `{"message":{"content":c},"done":d}` as parsed JSON. -/
def mkChunk (content : String) (done : Bool) : Js :=
  .obj [("message", .obj [("content", .str content)]), ("done", .bool done)]

/-- A concrete `JSON.parse` stand-in mapping three NDJSON line texts to the
three streamed fragments of the specification's assembly example and
everything else (in particular the whole body) to a parse failure. -/
def parseStub (s : String) : Option Js :=
  if s = "line1" then some (mkChunk "\x7b\"amount\"" false)
  else if s = "line2" then some (mkChunk ":100\x7d" false)
  else if s = "line3" then some (mkChunk "" true)
  else none

/-- The five-key JSON object text of the response-parser example. -/
def fiveKeyJson : String :=
  "\x7b\"amount\":-500,\"description\":\"Amazon\",\"date\":\"2024-05-01\",\"account\":\"HSBC ****0001\",\"category\":\"Shopping\"\x7d"

/-- The model text of the response-parser example: the five-key object in
a `json`-tagged code fence surrounded by conversational prose. -/
def c7Text : String :=
  "Here you go: ```json " ++ fiveKeyJson ++ " ``` Thanks!"

/-- The five-key object as a parsed JSON value. -/
def fiveKeyValue : Js :=
  .obj [("amount", .num (-500)), ("description", .str "Amazon"),
    ("date", .str "2024-05-01"), ("account", .str "HSBC ****0001"),
    ("category", .str "Shopping")]

/-- A concrete `JSON.parse` stand-in for the response-parser example:
parses exactly the five-key object text. -/
def parseStub7 (s : String) : Option Js :=
  if s = fiveKeyJson then some fiveKeyValue else none

/-! ## Helper lemmas -/

theorem leadsWith_iff (pat l : List Char) :
    leadsWith pat l = true ↔ ∃ v, l = pat ++ v := by
  induction pat generalizing l with
  | nil => simp [leadsWith]
  | cons a as ih =>
    cases l with
    | nil => simp [leadsWith]
    | cons b bs =>
      simp only [leadsWith, Bool.and_eq_true, decide_eq_true_eq, ih, List.cons_append]
      constructor
      · rintro ⟨rfl, v, rfl⟩
        exact ⟨v, rfl⟩
      · rintro ⟨v, h⟩
        injection h with h1 h2
        exact ⟨h1.symm, v, h2⟩

theorem containsSub_iff (l pat : List Char) :
    containsSub l pat = true ↔ ∃ u v, l = u ++ pat ++ v := by
  induction l with
  | nil =>
    simp only [containsSub, List.isEmpty_iff]
    constructor
    · rintro rfl
      exact ⟨[], [], rfl⟩
    · rintro ⟨u, v, h⟩
      rcases List.append_eq_nil.mp h.symm with ⟨h1, h2⟩
      exact (List.append_eq_nil.mp h1).2
  | cons c rest ih =>
    simp only [containsSub, Bool.or_eq_true, leadsWith_iff, ih]
    constructor
    · rintro (⟨v, hv⟩ | ⟨u, v, huv⟩)
      · exact ⟨[], v, by simpa using hv⟩
      · exact ⟨c :: u, v, by simp [huv]⟩
    · rintro ⟨u, v, h⟩
      cases u with
      | nil => exact Or.inl ⟨v, by simpa using h⟩
      | cons x u =>
        injection h with h1 h2
        exact Or.inr ⟨u, v, h2⟩

theorem jsIncludes_iff (s sub : String) :
    jsIncludes s sub = true ↔ ∃ u v, s.data = u ++ sub.data ++ v :=
  containsSub_iff s.data sub.data

theorem digitChar_toNat (d : Nat) (hd : d < 10) :
    (hexChars.getD d '0').toNat = 48 + d := by
  interval_cases d <;> rfl

theorem natDecDigits_ne_nil (n : Nat) : natDecDigits n ≠ [] := by
  rw [natDecDigits]
  split
  · simp
  · simp

theorem decVal_natDecDigits (n : Nat) : decVal (natDecDigits n) = n := by
  induction n using Nat.strong_induction_on with
  | _ n ih =>
    rw [natDecDigits]
    split
    · rename_i hlt
      show decVal [hexChars.getD n '0'] = n
      unfold decVal
      simp only [List.foldl]
      rw [digitChar_toNat n hlt]
      omega
    · rename_i hge
      have hpos : ¬ n < 10 := hge
      have hdiv : n / 10 < n := Nat.div_lt_self (by omega) (by omega)
      show decVal (natDecDigits (n / 10) ++ [hexChars.getD (n % 10) '0']) = n
      unfold decVal
      rw [List.foldl_append]
      have hmod : n % 10 < 10 := Nat.mod_lt _ (by omega)
      have hrec : decVal (natDecDigits (n / 10)) = n / 10 := ih _ hdiv
      unfold decVal at hrec
      simp only [List.foldl, hrec, digitChar_toNat (n % 10) hmod]
      omega

theorem natDecDigits_inj {m n : Nat} (h : natDecDigits m = natDecDigits n) :
    m = n := by
  have := congrArg decVal h
  rwa [decVal_natDecDigits, decVal_natDecDigits] at this

theorem natDecDigits_toNat_ge (n : Nat) :
    ∀ c ∈ natDecDigits n, 48 ≤ c.toNat := by
  induction n using Nat.strong_induction_on with
  | _ n ih =>
    intro c hc
    rw [natDecDigits] at hc
    split at hc
    · rename_i hlt
      simp only [List.mem_singleton] at hc
      subst hc
      rw [digitChar_toNat n hlt]
      omega
    · rename_i hge
      rcases List.mem_append.mp hc with h1 | h2
      · exact ih (n / 10) (Nat.div_lt_self (by omega) (by omega)) c h1
      · simp only [List.mem_singleton] at h2
        subst h2
        rw [digitChar_toNat (n % 10) (Nat.mod_lt _ (by omega))]
        omega

theorem intDecimal_inj : ∀ {i j : Int}, intDecimal i = intDecimal j → i = j := by
  intro i j h
  have hd := congrArg String.data h
  cases i with
  | ofNat m =>
    cases j with
    | ofNat n =>
      simp only [intDecimal] at hd
      exact congrArg Int.ofNat (natDecDigits_inj hd)
    | negSucc n =>
      simp only [intDecimal] at hd
      exfalso
      have : ('-' : Char) ∈ natDecDigits m := by
        rw [hd]
        exact List.mem_cons_self _ _
      have := natDecDigits_toNat_ge m _ this
      simp at this
  | negSucc m =>
    cases j with
    | ofNat n =>
      simp only [intDecimal] at hd
      exfalso
      have : ('-' : Char) ∈ natDecDigits n := by
        rw [← hd]
        exact List.mem_cons_self _ _
      have := natDecDigits_toNat_ge n _ this
      simp at this
    | negSucc n =>
      simp only [intDecimal, List.cons.injEq] at hd
      have := natDecDigits_inj hd.2
      exact congrArg Int.negSucc (by omega)

theorem keyPreimage_data (sms fd : String) (a : Int) (d : Option String) :
    (keyPreimage sms fd a d).data =
      sms.data ++ ("||".data ++ (fd.data ++ ("||".data ++
        ((intDecimal a).data ++ ("||".data ++ (d.getD "").data))))) := by
  simp [keyPreimage, String.data_append, List.append_assoc]

theorem keyPreimage_inj_sms {sms1 sms2 fd : String} {a : Int} {d : Option String}
    (h : sms1 ≠ sms2) :
    keyPreimage sms1 fd a d ≠ keyPreimage sms2 fd a d := by
  intro he
  apply h
  have hd := congrArg String.data he
  rw [keyPreimage_data, keyPreimage_data] at hd
  exact String.ext (List.append_cancel_right hd)

theorem keyPreimage_inj_date {sms fd1 fd2 : String} {a : Int} {d : Option String}
    (h : fd1 ≠ fd2) :
    keyPreimage sms fd1 a d ≠ keyPreimage sms fd2 a d := by
  intro he
  apply h
  have hd := congrArg String.data he
  rw [keyPreimage_data, keyPreimage_data] at hd
  have h2 := List.append_cancel_left (List.append_cancel_left hd)
  exact String.ext (List.append_cancel_right h2)

theorem keyPreimage_inj_amount {sms fd : String} {a1 a2 : Int} {d : Option String}
    (h : a1 ≠ a2) :
    keyPreimage sms fd a1 d ≠ keyPreimage sms fd a2 d := by
  intro he
  apply h
  have hd := congrArg String.data he
  rw [keyPreimage_data, keyPreimage_data] at hd
  have h4 := List.append_cancel_left (List.append_cancel_left
    (List.append_cancel_left (List.append_cancel_left hd)))
  exact intDecimal_inj (String.ext (List.append_cancel_right h4))

theorem keyPreimage_inj_description {sms fd : String} {a : Int} {d1 d2 : Option String}
    (h : d1.getD "" ≠ d2.getD "") :
    keyPreimage sms fd a d1 ≠ keyPreimage sms fd a d2 := by
  intro he
  apply h
  have hd := congrArg String.data he
  rw [keyPreimage_data, keyPreimage_data] at hd
  have h6 := List.append_cancel_left (List.append_cancel_left
    (List.append_cancel_left (List.append_cancel_left
      (List.append_cancel_left (List.append_cancel_left hd)))))
  exact String.ext h6

theorem toHex8_length (n : Nat) : (toHex8 n).length = 8 := by
  simp [toHex8]

theorem sha256hexChars_length (s : String) : (sha256hexChars s).length = 64 := by
  simp [sha256hexChars, List.length_append, toHex8_length]

theorem toHex8_mem {c : Char} {n : Nat} (hc : c ∈ toHex8 n) : c ∈ hexChars := by
  simp only [toHex8, List.mem_map, List.mem_range] at hc
  obtain ⟨i, hi, rfl⟩ := hc
  have h16 : (n >>> (28 - 4 * i)) % 16 < 16 := Nat.mod_lt _ (by omega)
  generalize (n >>> (28 - 4 * i)) % 16 = m at h16
  interval_cases m <;> decide

theorem sha256hexChars_mem {c : Char} {s : String}
    (hc : c ∈ sha256hexChars s) : c ∈ hexChars := by
  simp only [sha256hexChars, List.mem_append] at hc
  rcases hc with ((((((h | h) | h) | h) | h) | h) | h) | h <;> exact toHex8_mem h

theorem idKey_length (sms fd : String) (a : Int) (d : Option String) :
    (idKey sms fd a d).length = 32 := by
  show (String.mk _).length = 32
  rw [String.length_mk, List.length_take, sha256hexChars_length]
  rfl

theorem idKey_hexchars (sms fd : String) (a : Int) (d : Option String) :
    ∀ c ∈ (idKey sms fd a d).data, c ∈ hexChars := by
  intro c hc
  exact sha256hexChars_mem (List.take_subset _ _ hc)

/-! ## Claim theorems -/

/-- C1: the idempotency key is a pure deterministic function of the tuple
`(rawMessage, finalDate, amountMinorUnits, description with null replaced by
the empty string)` — tuples equal up to that normalization give identical
keys; the key is 32 hex characters sliced from the SHA-256 digest of the
concatenation of the four values; and two tuples that differ in exactly one
component have different hash preimages, so their keys differ unless the
truncated digests of those two distinct preimages collide. -/
theorem C1_idempotency_key :
    (∀ (sms fd : String) (amt : Int) (d1 d2 : Option String),
        d1.getD "" = d2.getD "" → idKey sms fd amt d1 = idKey sms fd amt d2)
  ∧ (∀ (sms fd : String) (amt : Int) (d : Option String),
        idKey sms fd amt d = ⟨(sha256hexChars (keyPreimage sms fd amt d)).take 32⟩
        ∧ (idKey sms fd amt d).length = 32
        ∧ ∀ c ∈ (idKey sms fd amt d).data, c ∈ hexChars)
  ∧ (∀ (sms1 sms2 fd : String) (amt : Int) (d : Option String), sms1 ≠ sms2 →
        keyPreimage sms1 fd amt d ≠ keyPreimage sms2 fd amt d
        ∧ (idKey sms1 fd amt d = idKey sms2 fd amt d →
            (sha256hexChars (keyPreimage sms1 fd amt d)).take 32 =
              (sha256hexChars (keyPreimage sms2 fd amt d)).take 32))
  ∧ (∀ (sms fd1 fd2 : String) (amt : Int) (d : Option String), fd1 ≠ fd2 →
        keyPreimage sms fd1 amt d ≠ keyPreimage sms fd2 amt d
        ∧ (idKey sms fd1 amt d = idKey sms fd2 amt d →
            (sha256hexChars (keyPreimage sms fd1 amt d)).take 32 =
              (sha256hexChars (keyPreimage sms fd2 amt d)).take 32))
  ∧ (∀ (sms fd : String) (amt1 amt2 : Int) (d : Option String), amt1 ≠ amt2 →
        keyPreimage sms fd amt1 d ≠ keyPreimage sms fd amt2 d
        ∧ (idKey sms fd amt1 d = idKey sms fd amt2 d →
            (sha256hexChars (keyPreimage sms fd amt1 d)).take 32 =
              (sha256hexChars (keyPreimage sms fd amt2 d)).take 32))
  ∧ (∀ (sms fd : String) (amt : Int) (d1 d2 : Option String),
        d1.getD "" ≠ d2.getD "" →
        keyPreimage sms fd amt d1 ≠ keyPreimage sms fd amt d2
        ∧ (idKey sms fd amt d1 = idKey sms fd amt d2 →
            (sha256hexChars (keyPreimage sms fd amt d1)).take 32 =
              (sha256hexChars (keyPreimage sms fd amt d2)).take 32)) := by
  refine ⟨?_, ?_, ?_, ?_, ?_, ?_⟩
  · intro sms fd amt d1 d2 hdd
    simp [idKey, keyPreimage, hdd]
  · intro sms fd amt d
    exact ⟨rfl, idKey_length sms fd amt d, idKey_hexchars sms fd amt d⟩
  · intro sms1 sms2 fd amt d hne
    exact ⟨keyPreimage_inj_sms hne, fun h => congrArg String.data h⟩
  · intro sms fd1 fd2 amt d hne
    exact ⟨keyPreimage_inj_date hne, fun h => congrArg String.data h⟩
  · intro sms fd amt1 amt2 d hne
    exact ⟨keyPreimage_inj_amount hne, fun h => congrArg String.data h⟩
  · intro sms fd amt d1 d2 hne
    exact ⟨keyPreimage_inj_description hne, fun h => congrArg String.data h⟩

/-- Witness for C1 at concrete inputs: a null and an empty-string
description normalize to the same key; messages `"A"` and `"B"` (all other
components fixed) have distinct preimages; amounts `-50000` and `-49999`
have distinct preimages. -/
theorem C1_idempotency_key_witness :
    ((none : Option String).getD "" = (some "").getD ""
      ∧ idKey "msg" "2024-05-01" (-50000) none = idKey "msg" "2024-05-01" (-50000) (some ""))
  ∧ (("A" : String) ≠ "B"
      ∧ keyPreimage "A" "2024-05-01" (-50000) (some "Amazon") ≠
          keyPreimage "B" "2024-05-01" (-50000) (some "Amazon"))
  ∧ (((-50000 : Int) ≠ -49999)
      ∧ keyPreimage "msg" "2024-05-01" (-50000) (some "Amazon") ≠
          keyPreimage "msg" "2024-05-01" (-49999) (some "Amazon")) :=
  ⟨⟨by decide, C1_idempotency_key.1 "msg" "2024-05-01" (-50000) none (some "") (by decide)⟩,
   ⟨by decide, (C1_idempotency_key.2.2.1 "A" "B" "2024-05-01" (-50000) (some "Amazon") (by decide)).1⟩,
   ⟨by decide, (C1_idempotency_key.2.2.2.2.1 "msg" "2024-05-01" (-50000) (-49999) (some "Amazon") (by decide)).1⟩⟩

/-- C9: `amountMinorUnits` is the nearest-integer rounding of
`amount × 100` (on exact rationals, with `Math.round`'s half-up tie-break):
`-500 ↦ -50000`; the result is within one half of `amount × 100`; exact
halves round up, so `19.995 ↦ 2000`; and the sign of the amount is
preserved (debits negative, credits positive). -/
theorem C9_minor_units :
    toMinorUnits (-500) = -50000
  ∧ (∀ q : ℚ, |(toMinorUnits q : ℚ) - q * 100| ≤ 1 / 2)
  ∧ (∀ (q : ℚ) (n : ℤ), q * 100 = n + 1 / 2 → toMinorUnits q = n + 1)
  ∧ toMinorUnits (19995 / 1000) = 2000
  ∧ (∀ q : ℚ, q < 0 → toMinorUnits q ≤ 0)
  ∧ (∀ q : ℚ, 0 < q → 0 ≤ toMinorUnits q) := by
  have htie : ∀ (q : ℚ) (n : ℤ), q * 100 = n + 1 / 2 → toMinorUnits q = n + 1 := by
    intro q n hq
    rw [toMinorUnits, hq, round_eq]
    have : (n : ℚ) + 1 / 2 + 1 / 2 = ((n + 1 : ℤ) : ℚ) := by push_cast; ring
    rw [this, Int.floor_intCast]
  refine ⟨?_, ?_, htie, ?_, ?_, ?_⟩
  · rw [toMinorUnits, show ((-500 : ℚ) * 100) = ((-50000 : ℤ) : ℚ) by norm_num,
      round_intCast]
  · intro q
    rw [abs_sub_comm]
    exact abs_sub_round (q * 100)
  · have h19 : (19995 / 1000 : ℚ) * 100 = ((1999 : ℤ) : ℚ) + 1 / 2 := by norm_num
    have := htie (19995 / 1000 : ℚ) 1999 h19
    omega
  · intro q hq
    have h1 : (q * 100 + 1 / 2 : ℚ) < ((1 : ℤ) : ℚ) := by push_cast; nlinarith
    have h2 := Int.floor_lt.mpr h1
    rw [toMinorUnits, round_eq]
    omega
  · intro q hq
    have h1 : (((0 : ℤ) : ℚ)) ≤ q * 100 + 1 / 2 := by push_cast; nlinarith
    have h2 := Int.le_floor.mpr h1
    rw [toMinorUnits, round_eq]
    omega

/-- Witness for C9: the tie-break conjunct applied at `19.995`, and the
sign conjuncts applied at `-500` and `19.995`. -/
theorem C9_minor_units_witness :
    ((19995 / 1000 : ℚ) * 100 = (1999 : ℤ) + 1 / 2 ∧ toMinorUnits (19995 / 1000) = 1999 + 1)
  ∧ ((-500 : ℚ) < 0 ∧ toMinorUnits (-500) ≤ 0)
  ∧ ((0 : ℚ) < 19995 / 1000 ∧ 0 ≤ toMinorUnits (19995 / 1000)) :=
  ⟨⟨by norm_num, C9_minor_units.2.2.1 (19995 / 1000) 1999 (by norm_num)⟩,
   ⟨by norm_num, C9_minor_units.2.2.2.2.1 (-500) (by norm_num)⟩,
   ⟨by norm_num, C9_minor_units.2.2.2.2.2 (19995 / 1000) (by norm_num)⟩⟩

/-- C2: when the validated amount is null the handler replies
`{ignored: true, parsed}` immediately and the post-validation trace is
empty — EntityMatcher, TransactionBuilder and the external import are never
invoked; by contrast every invocation of `importIntoActual` produces a
non-empty trace. -/
theorem C2_amount_null_short_circuit :
    (∀ (accounts : List Account) (categories : List Category)
        (notesTag today sms : String) (parsed : Parsed),
        parsed.amount = none →
        ingestAfterValidation accounts categories notesTag today sms parsed
          = (.ignored parsed, []))
  ∧ (∀ (accounts : List Account) (categories : List Category)
        (notesTag today sms : String) (amount : ℚ)
        (description date accountLabel categoryLabel : Option String),
        (importIntoActual accounts categories notesTag today sms amount
          description date accountLabel categoryLabel).2 ≠ []) := by
  constructor
  · intro accounts categories notesTag today sms parsed h
    simp [ingestAfterValidation, h]
  · intro accounts categories notesTag today sms amount description date accountLabel categoryLabel
    simp only [importIntoActual]
    split <;> simp

/-- Witness for C2: a concrete validated extraction with null amount is
answered as ignored with no external calls. -/
theorem C2_amount_null_short_circuit_witness :
    (⟨none, some "Amazon", none, some "HSBC", none⟩ : Parsed).amount = none
  ∧ ingestAfterValidation [⟨"a1", "HSBC ****0001", false⟩] [] "SMS" "2024-05-01"
      "promo msg" ⟨none, some "Amazon", none, some "HSBC", none⟩
      = (.ignored ⟨none, some "Amazon", none, some "HSBC", none⟩, []) :=
  ⟨rfl, C2_amount_null_short_circuit.1 [⟨"a1", "HSBC ****0001", false⟩] [] "SMS"
    "2024-05-01" "promo msg" ⟨none, some "Amazon", none, some "HSBC", none⟩ rfl⟩

theorem tryInitCatalog_ok_nonempty {env : ActualEnv} {acc : List Account}
    {cats : List Category} {ev : List ExtEvent}
    (h : tryInitCatalog env = (.ok (acc, cats), ev)) : acc ≠ [] := by
  obtain ⟨ir, dr, ar, cr⟩ := env
  cases ir with
  | error e => simp [tryInitCatalog] at h
  | ok u =>
    cases dr with
    | error e => simp [tryInitCatalog] at h
    | ok u2 =>
      cases ar with
      | error e => simp [tryInitCatalog] at h
      | ok accounts =>
        simp only [tryInitCatalog] at h
        split at h
        · simp at h
        · rename_i hlen
          cases cr with
          | error e => simp at h
          | ok categories =>
            simp only [Prod.mk.injEq, Except.ok.injEq] at h
            rw [← h.1.1]
            intro hnil
            exact hlen (by rw [hnil]; rfl)

theorem tryInitCatalog_has_initCall (env : ActualEnv) :
    ExtEvent.initCall ∈ (tryInitCatalog env).2 := by
  obtain ⟨ir, dr, ar, cr⟩ := env
  cases ir <;> cases dr <;> cases ar <;> cases cr <;>
    simp only [tryInitCatalog] <;>
    first
      | (split <;> simp)
      | simp

/-- C8: whenever catalog initialization fails (ledger init, budget
download, account or category fetch error, or the empty active-account
check), `ensureActualReady` forces a shutdown call, resets the cache to the
Uninitialized state, and re-raises exactly the underlying error; the
Uninitialized state never takes the fast path, so the next request
re-attempts initialization. -/
theorem C8_init_failure_cleanup :
    (∀ (env : ActualEnv) (st : CacheState) (e : String),
        (ensureActualReady env st).2.1 = .error e →
        (ensureActualReady env st).1 = uninitCache
        ∧ ExtEvent.shutdownCall ∈ (ensureActualReady env st).2.2
        ∧ (tryInitCatalog env).1 = .error e)
  ∧ (∀ (env : ActualEnv) (st : CacheState) (e : String),
        st.actualReady = false → (tryInitCatalog env).1 = .error e →
        (ensureActualReady env st).2.1 = .error e)
  ∧ (∀ env : ActualEnv,
        ExtEvent.initCall ∈ (ensureActualReady env uninitCache).2.2) := by
  refine ⟨?_, ?_, ?_⟩
  · intro env st e h
    rcases hres : tryInitCatalog env with ⟨res, ev⟩
    by_cases hfast : st.actualReady && st.actualAccounts.length > 0
    · rw [ensureActualReady, if_pos hfast] at h
      simp at h
    · rw [ensureActualReady, if_neg hfast] at h ⊢
      rw [hres] at h ⊢
      cases res with
      | ok ac => simp at h
      | error e2 =>
        obtain rfl : e2 = e := by simpa using h
        exact ⟨rfl, by simp, rfl⟩
  · intro env st e hready herr
    rcases hres : tryInitCatalog env with ⟨res, ev⟩
    rw [hres] at herr
    simp only at herr
    have hfast : ¬(st.actualReady && st.actualAccounts.length > 0) = true := by
      simp [hready]
    rw [ensureActualReady, if_neg hfast, hres]
    subst herr
    rfl
  · intro env
    have hfast : ¬(uninitCache.actualReady && uninitCache.actualAccounts.length > 0) = true := by
      simp [uninitCache]
    rw [ensureActualReady, if_neg hfast]
    rcases hres : tryInitCatalog env with ⟨res, ev⟩
    have hmem : ExtEvent.initCall ∈ ev := by
      have := tryInitCatalog_has_initCall env
      rwa [hres] at this
    cases res with
    | ok ac => simpa using hmem
    | error e => simp only; simp [hmem]

/-- Witness for C8: a failing `init` call on an arbitrary warm cache resets
everything, calls shutdown, and re-raises; the clean state then re-attempts
initialization. -/
theorem C8_init_failure_cleanup_witness :
    (ensureActualReady ⟨.error "connect ECONNREFUSED", .ok (), .ok [], .ok []⟩
        ⟨true, [], [⟨"c", "Food", false⟩]⟩).2.1 = .error "connect ECONNREFUSED"
  ∧ ((ensureActualReady ⟨.error "connect ECONNREFUSED", .ok (), .ok [], .ok []⟩
        ⟨true, [], [⟨"c", "Food", false⟩]⟩).1 = uninitCache
      ∧ ExtEvent.shutdownCall ∈ (ensureActualReady ⟨.error "connect ECONNREFUSED", .ok (), .ok [], .ok []⟩
          ⟨true, [], [⟨"c", "Food", false⟩]⟩).2.2
      ∧ (tryInitCatalog ⟨.error "connect ECONNREFUSED", .ok (), .ok [], .ok []⟩).1
          = .error "connect ECONNREFUSED") :=
  ⟨rfl,
   C8_init_failure_cleanup.1 ⟨.error "connect ECONNREFUSED", .ok (), .ok [], .ok []⟩
     ⟨true, [], [⟨"c", "Food", false⟩]⟩ "connect ECONNREFUSED" rfl⟩

/-- C10: whenever the cache ends up Ready, its active-account list is
non-empty; and when init and download succeed but every fetched account is
closed, initialization deliberately fails with
`"No active accounts found in Actual Budget"` and resets the cache. -/
theorem C10_ready_nonempty :
    (∀ (env : ActualEnv) (st : CacheState),
        (ensureActualReady env st).1.actualReady = true →
        (ensureActualReady env st).1.actualAccounts ≠ [])
  ∧ (∀ (env : ActualEnv) (st : CacheState) (accounts : List Account),
        st.actualReady = false →
        env.initRes = .ok () → env.downloadRes = .ok () →
        env.accountsRes = .ok accounts →
        accounts.filter (fun a => !a.closed) = [] →
        ensureActualReady env st =
          (uninitCache, .error "No active accounts found in Actual Budget",
           [.initCall, .downloadCall, .getAccountsCall, .shutdownCall])) := by
  constructor
  · intro env st hready
    by_cases hfast : st.actualReady && st.actualAccounts.length > 0
    · rw [ensureActualReady, if_pos hfast] at hready ⊢
      have := (Bool.and_eq_true _ _).mp hfast
      simp only [decide_eq_true_eq] at this
      exact List.length_pos.mp this.2
    · rw [ensureActualReady, if_neg hfast] at hready ⊢
      rcases hres : tryInitCatalog env with ⟨res, ev⟩
      cases res with
      | ok ac =>
        obtain ⟨acc, cats⟩ := ac
        exact tryInitCatalog_ok_nonempty hres
      | error e =>
        rw [hres] at hready
        simp [uninitCache] at hready
  · intro env st accounts hready hinit hdl hacc hfilter
    have hfast : ¬(st.actualReady && st.actualAccounts.length > 0) = true := by
      simp [hready]
    have htry : tryInitCatalog env =
        (.error "No active accounts found in Actual Budget",
         [.initCall, .downloadCall, .getAccountsCall]) := by
      rw [tryInitCatalog, hinit, hdl, hacc]
      simp only [hfilter]
      rfl
    rw [ensureActualReady, if_neg hfast, htry]
    rfl

/-- Witness for C10: a catalog of one closed account makes initialization
fail with the dedicated message and a full reset. -/
theorem C10_ready_nonempty_witness :
    ((uninitCache.actualReady = false)
      ∧ (⟨.ok (), .ok (), .ok [⟨"a1", "Old", true⟩], .ok []⟩ : ActualEnv).initRes = .ok ()
      ∧ ([⟨"a1", "Old", true⟩] : List Account).filter (fun a => !a.closed) = [])
  ∧ ensureActualReady ⟨.ok (), .ok (), .ok [⟨"a1", "Old", true⟩], .ok []⟩ uninitCache =
      (uninitCache, .error "No active accounts found in Actual Budget",
       [.initCall, .downloadCall, .getAccountsCall, .shutdownCall]) :=
  ⟨⟨rfl, rfl, by decide⟩,
   C10_ready_nonempty.2 ⟨.ok (), .ok (), .ok [⟨"a1", "Old", true⟩], .ok []⟩
     uninitCache [⟨"a1", "Old", true⟩] rfl rfl rfl rfl (by decide)⟩

theorem find?_some_of_exists {α : Type} {p : α → Bool} {l : List α}
    (h : ∃ x ∈ l, p x = true) :
    ∃ a, l.find? p = some a ∧ p a = true := by
  have hs : (l.find? p).isSome = true := List.find?_isSome.mpr h
  rcases ho : l.find? p with _ | a
  · rw [ho] at hs
    simp at hs
  · exact ⟨a, rfl, List.find?_some ho⟩

/-- C3 as stated is refuted by the empty-string label: with catalog
`[{a1, "X"}, {a2, "1234"}]`, label `""` and message `"pay 1234"`, the
stage-2 substring predicate holds of `a1` (every name contains the empty
label, and no exact or digit match involves `a1`), yet resolution skips
stage 2 (the label is falsy) and returns the digit-fallback match `a2`;
with catalog `[{a1, "X"}]` and message `"y"` it returns no account at all
although a stage-2 match exists. -/
theorem C3_match_priority_counterexample :
    (stage2Pred "" ⟨"a1", "X", false⟩ = true
      ∧ (∀ a ∈ [(⟨"a1", "X", false⟩ : Account), ⟨"a2", "1234", false⟩],
          exactPred (some "") a = false)
      ∧ [(⟨"a1", "X", false⟩ : Account), ⟨"a2", "1234", false⟩].find?
          (stage2Pred "") = some ⟨"a1", "X", false⟩
      ∧ matchAccount [⟨"a1", "X", false⟩, ⟨"a2", "1234", false⟩] (some "") "pay 1234"
          = some ⟨"a2", "1234", false⟩
      ∧ digitFallback [⟨"a1", "X", false⟩, ⟨"a2", "1234", false⟩]
          (extractDigits "pay 1234") = some ⟨"a2", "1234", false⟩)
  ∧ (stage2Pred "" ⟨"a1", "X", false⟩ = true
      ∧ matchAccount [⟨"a1", "X", false⟩] (some "") "y" = none) := by
  exact ⟨⟨by decide, by decide, by decide, by decide, by decide⟩, by decide, by decide⟩

/-- C3 amended: the priority is strict and first-match-wins, with the
stage-2 preference holding for every non-empty (truthy) label: an exact
case-insensitive name match is always returned when one exists, even when
substring or digit-fallback matches also exist; and for a non-empty label
with no exact match, the first stage-2 substring match is returned in
preference to any digit fallback. -/
theorem C3_match_priority :
    (∀ (accounts : List Account) (label : Option String) (sms : String),
        (∃ a ∈ accounts, exactPred label a = true) →
        ∃ a, accounts.find? (exactPred label) = some a
          ∧ matchAccount accounts label sms = some a
          ∧ exactPred label a = true)
  ∧ (∀ (accounts : List Account) (l : String) (sms : String), l ≠ "" →
        (∀ a ∈ accounts, exactPred (some l) a = false) →
        (∃ a ∈ accounts, stage2Pred l a = true) →
        ∃ a, accounts.find? (stage2Pred l) = some a
          ∧ matchAccount accounts (some l) sms = some a
          ∧ stage2Pred l a = true) := by
  constructor
  · intro accounts label sms hex
    obtain ⟨a, hfind, hp⟩ := find?_some_of_exists hex
    refine ⟨a, hfind, ?_, hp⟩
    simp only [matchAccount, hfind]
  · intro accounts l sms hne hex h2
    obtain ⟨a, hfind, hp⟩ := find?_some_of_exists h2
    have hnone : accounts.find? (exactPred (some l)) = none := by
      rw [List.find?_eq_none]
      intro x hx
      simp [hex x hx]
    refine ⟨a, hfind, ?_, hp⟩
    simp only [matchAccount, hnone, hfind]
    rw [if_neg hne]

/-- Witness for C3 at concrete inputs: an exact match beats an also-present
substring match, and a substring match beats an also-present digit
fallback. -/
theorem C3_match_priority_witness :
    ((∃ a ∈ [(⟨"a1", "HSBC ****0001", false⟩ : Account), ⟨"a2", "hsbc ****0001 extra", false⟩],
        exactPred (some "HSBC ****0001") a = true)
      ∧ ∃ a, [(⟨"a1", "HSBC ****0001", false⟩ : Account), ⟨"a2", "hsbc ****0001 extra", false⟩].find?
            (exactPred (some "HSBC ****0001")) = some a
          ∧ matchAccount [⟨"a1", "HSBC ****0001", false⟩, ⟨"a2", "hsbc ****0001 extra", false⟩]
              (some "HSBC ****0001") "Card 2979" = some a
          ∧ exactPred (some "HSBC ****0001") a = true)
  ∧ (("hsbc" : String) ≠ ""
      ∧ (∀ a ∈ [(⟨"a1", "HSBC ****0001", false⟩ : Account), ⟨"a2", "ICICI ****2979", false⟩],
          exactPred (some "hsbc") a = false)
      ∧ (∃ a ∈ [(⟨"a1", "HSBC ****0001", false⟩ : Account), ⟨"a2", "ICICI ****2979", false⟩],
          stage2Pred "hsbc" a = true)
      ∧ ∃ a, [(⟨"a1", "HSBC ****0001", false⟩ : Account), ⟨"a2", "ICICI ****2979", false⟩].find?
            (stage2Pred "hsbc") = some a
          ∧ matchAccount [⟨"a1", "HSBC ****0001", false⟩, ⟨"a2", "ICICI ****2979", false⟩]
              (some "hsbc") "Card 2979" = some a
          ∧ stage2Pred "hsbc" a = true) :=
  ⟨⟨⟨⟨"a1", "HSBC ****0001", false⟩, by simp, by decide⟩,
    C3_match_priority.1 [⟨"a1", "HSBC ****0001", false⟩, ⟨"a2", "hsbc ****0001 extra", false⟩]
      (some "HSBC ****0001") "Card 2979"
      ⟨⟨"a1", "HSBC ****0001", false⟩, by simp, by decide⟩⟩,
   ⟨by decide, by decide, ⟨⟨"a1", "HSBC ****0001", false⟩, by simp, by decide⟩,
    C3_match_priority.2 [⟨"a1", "HSBC ****0001", false⟩, ⟨"a2", "ICICI ****2979", false⟩]
      "hsbc" "Card 2979" (by decide) (by decide)
      ⟨⟨"a1", "HSBC ****0001", false⟩, by simp, by decide⟩⟩⟩

theorem scan4_cons (a b c d : Char) (rest : List Char) :
    scan4 (a :: b :: c :: d :: rest) =
      if (a.isDigit && b.isDigit && c.isDigit && d.isDigit) = true
      then [a, b, c, d] :: scan4 rest
      else scan4 (b :: c :: d :: rest) := rfl

theorem scan4_complete : ∀ (n : Nat) (pre post : List Char) (r0 r1 r2 r3 : Char),
    pre.length = n →
    r0.isDigit = true → r1.isDigit = true → r2.isDigit = true → r3.isDigit = true →
    (∀ p, pre.getLast? = some p → p.isDigit = false) →
    [r0, r1, r2, r3] ∈ scan4 (pre ++ r0 :: r1 :: r2 :: r3 :: post) := by
  intro n
  induction n using Nat.strong_induction_on with
  | _ n ih =>
    intro pre post r0 r1 r2 r3 hlen h0 h1 h2 h3 hpre
    rcases pre with _ | ⟨p0, _ | ⟨p1, _ | ⟨p2, _ | ⟨p3, rest⟩⟩⟩⟩
    · rw [List.nil_append, scan4_cons, if_pos (by simp [h0, h1, h2, h3])]
      exact List.mem_cons_self _ _
    · have hp0 : p0.isDigit = false := hpre p0 rfl
      simp only [List.cons_append, List.nil_append]
      rw [scan4_cons, if_neg (by simp [hp0]),
        scan4_cons, if_pos (by simp [h0, h1, h2, h3])]
      exact List.mem_cons_self _ _
    · have hp1 : p1.isDigit = false := hpre p1 rfl
      simp only [List.cons_append, List.nil_append]
      rw [scan4_cons, if_neg (by simp [hp1]),
        scan4_cons, if_neg (by simp [hp1]),
        scan4_cons, if_pos (by simp [h0, h1, h2, h3])]
      exact List.mem_cons_self _ _
    · have hp2 : p2.isDigit = false := hpre p2 rfl
      simp only [List.cons_append, List.nil_append]
      rw [scan4_cons, if_neg (by simp [hp2]),
        scan4_cons, if_neg (by simp [hp2]),
        scan4_cons, if_neg (by simp [hp2]),
        scan4_cons, if_pos (by simp [h0, h1, h2, h3])]
      exact List.mem_cons_self _ _
    · subst hlen
      simp only [List.cons_append]
      rw [scan4_cons]
      by_cases hc : (p0.isDigit && p1.isDigit && p2.isDigit && p3.isDigit) = true
      · rw [if_pos hc]
        rcases rest with _ | ⟨rr, rs⟩
        · exfalso
          have hp3 : p3.isDigit = false := hpre p3 rfl
          simp [hp3] at hc
        · refine List.mem_cons_of_mem _ ?_
          have hlast : ∀ p, (rr :: rs).getLast? = some p → p.isDigit = false := by
            intro p hp
            apply hpre p
            rw [List.getLast?_cons_cons, List.getLast?_cons_cons,
              List.getLast?_cons_cons, List.getLast?_cons_cons]
            exact hp
          exact ih (rr :: rs).length (by simp) (rr :: rs) post r0 r1 r2 r3
            rfl h0 h1 h2 h3 hlast
      · rw [if_neg hc]
        have hlast : ∀ p, (p1 :: p2 :: p3 :: rest).getLast? = some p → p.isDigit = false := by
          intro p hp
          apply hpre p
          rw [List.getLast?_cons_cons]
          exact hp
        have := ih (p1 :: p2 :: p3 :: rest).length (by simp)
          (p1 :: p2 :: p3 :: rest) post r0 r1 r2 r3 rfl h0 h1 h2 h3 hlast
        simpa only [List.cons_append] using this

/-- C4: the digit fallback extracts four-consecutive-digit runs from the
raw message (not the label): every maximal run of exactly four digits in
the message is extracted; when neither the exact stage nor the substring
stage applies, resolution equals the fallback loop over the extracted runs
of the message; that loop returns, for the runs in order of appearance, the
first catalog account whose name contains the run; and on the
specification's example catalog with `accountLabel = null` and a message
containing "Card 2979", resolution yields `a2`. -/
theorem C4_digit_fallback :
    (∀ (sms : String) (pre post : List Char) (r0 r1 r2 r3 : Char),
        sms.data = pre ++ r0 :: r1 :: r2 :: r3 :: post →
        r0.isDigit = true → r1.isDigit = true → r2.isDigit = true → r3.isDigit = true →
        (∀ p, pre.getLast? = some p → p.isDigit = false) →
        (∀ q, post.head? = some q → q.isDigit = false) →
        (⟨[r0, r1, r2, r3]⟩ : String) ∈ extractDigits sms)
  ∧ (∀ (accounts : List Account) (label : Option String) (sms : String),
        accounts.find? (exactPred label) = none →
        (∀ l, label = some l → l ≠ "" → accounts.find? (stage2Pred l) = none) →
        matchAccount accounts label sms = digitFallback accounts (extractDigits sms))
  ∧ (∀ (accounts : List Account) (d : String) (ds : List String) (a : Account),
        accounts.find? (fun a => jsIncludes a.name d) = some a →
        digitFallback accounts (d :: ds) = some a)
  ∧ (∀ (accounts : List Account) (d : String) (ds : List String),
        accounts.find? (fun a => jsIncludes a.name d) = none →
        digitFallback accounts (d :: ds) = digitFallback accounts ds)
  ∧ (jsIncludes "Spent Rs.500 using Card 2979 at Amazon" "Card 2979" = true
      ∧ matchAccount [⟨"a1", "HSBC ****0001", false⟩, ⟨"a2", "ICICI ****2979", false⟩]
          none "Spent Rs.500 using Card 2979 at Amazon"
          = some ⟨"a2", "ICICI ****2979", false⟩) := by
  refine ⟨?_, ?_, ?_, ?_, by decide, by decide⟩
  · intro sms pre post r0 r1 r2 r3 hdata h0 h1 h2 h3 hpre hpost
    rw [extractDigits, hdata]
    exact List.mem_map_of_mem _ (scan4_complete pre.length pre post r0 r1 r2 r3
      rfl h0 h1 h2 h3 hpre)
  · intro accounts label sms hex h2
    cases label with
    | none => simp [matchAccount, hex]
    | some l =>
      by_cases hl : l = ""
      · subst hl
        simp [matchAccount, hex]
      · simp [matchAccount, hex, hl, h2 l rfl hl]
  · intro accounts d ds a hfind
    simp [digitFallback, hfind]
  · intro accounts d ds hfind
    simp [digitFallback, hfind]

/-- Witness for C4: the run `2979` (the whole of message `"2979"`) is
extracted; the fallback equality at the example catalog with a null label;
the first-hit and skip behaviours of the loop at concrete runs. -/
theorem C4_digit_fallback_witness :
    (("2979" : String).data = [] ++ '2' :: '9' :: '7' :: '9' :: []
      ∧ (⟨['2', '9', '7', '9']⟩ : String) ∈ extractDigits "2979")
  ∧ ([(⟨"a1", "HSBC ****0001", false⟩ : Account), ⟨"a2", "ICICI ****2979", false⟩].find?
        (exactPred none) = none
      ∧ matchAccount [⟨"a1", "HSBC ****0001", false⟩, ⟨"a2", "ICICI ****2979", false⟩]
          none "Spent Rs.500 using Card 2979 at Amazon"
        = digitFallback [⟨"a1", "HSBC ****0001", false⟩, ⟨"a2", "ICICI ****2979", false⟩]
            (extractDigits "Spent Rs.500 using Card 2979 at Amazon"))
  ∧ digitFallback [(⟨"a2", "ICICI ****2979", false⟩ : Account)] ["2979"]
      = some ⟨"a2", "ICICI ****2979", false⟩
  ∧ digitFallback [(⟨"a2", "ICICI ****2979", false⟩ : Account)] ["1111", "2979"]
      = digitFallback [(⟨"a2", "ICICI ****2979", false⟩ : Account)] ["2979"] :=
  ⟨⟨by decide,
    C4_digit_fallback.1 "2979" [] [] '2' '9' '7' '9' (by decide) (by decide)
      (by decide) (by decide) (by decide) (fun p hp => by cases hp) (fun q hq => by cases hq)⟩,
   ⟨by decide,
    C4_digit_fallback.2.1 [⟨"a1", "HSBC ****0001", false⟩, ⟨"a2", "ICICI ****2979", false⟩]
      none "Spent Rs.500 using Card 2979 at Amazon" (by decide)
      (fun l hl => by cases hl)⟩,
   C4_digit_fallback.2.2.1 [⟨"a2", "ICICI ****2979", false⟩] "2979" [] _ (by decide),
   C4_digit_fallback.2.2.2.1 [⟨"a2", "ICICI ****2979", false⟩] "1111" ["2979"] (by decide)⟩

/-- C5 as stated is refuted in both directions of the substring test: for
catalog name `"HSBC-0001"` and label `"hsbc0001"` the spec's predicate
(punctuation stripped from the catalog name) matches but the code does not
(the code strips only asterisks and whitespace, and only on the second
disjunct); for name `"A*B"` and label `"a*b"` the code matches (its first
disjunct uses the unstripped name) but the spec's predicate does not. -/
theorem C5_stage2_counterexample :
    (stage2SpecMatch "HSBC-0001" "hsbc0001" = true
      ∧ stage2Pred "hsbc0001" ⟨"a1", "HSBC-0001", false⟩ = false)
  ∧ (stage2Pred "a*b" ⟨"a1", "A*B", false⟩ = true
      ∧ stage2SpecMatch "A*B" "a*b" = false) := by
  exact ⟨⟨by decide, by decide⟩, by decide, by decide⟩

/-- C5 amended: stage 2 matches exactly when the unmodified lowercased
catalog name contains the lowercased label as a substring, or the
lowercased label contains the catalog name lowercased with exactly the
asterisk and whitespace characters (not all punctuation) removed. -/
theorem C5_stage2_characterization (a : Account) (l : String) :
    stage2Pred l a = true ↔
      ((∃ u v, (lowerStr a.name).data = u ++ (lowerStr l).data ++ v)
        ∨ (∃ u v, (lowerStr l).data = u ++ (stripStarWs (lowerStr a.name)).data ++ v)) := by
  rw [stage2Pred, Bool.or_eq_true, jsIncludes_iff, jsIncludes_iff]

/-- Witness for C5 at a concrete pair: label `"hsbc"` matches name
`"HSBC ****0001"` through the first disjunct. -/
theorem C5_stage2_characterization_witness :
    stage2Pred "hsbc" ⟨"a1", "HSBC ****0001", false⟩ = true :=
  (C5_stage2_characterization ⟨"a1", "HSBC ****0001", false⟩ "hsbc").mpr
    (Or.inl ⟨[], " ****0001".data, by decide⟩)

theorem strFoldlAppend (l : List String) :
    ∀ a b : String, l.foldl (fun r s => r ++ s) (a ++ b)
      = a ++ l.foldl (fun r s => r ++ s) b := by
  induction l with
  | nil => intro a b; rfl
  | cons x xs ih =>
    intro a b
    simp only [List.foldl]
    rw [String.append_assoc, ih]

theorem jsContent_mkChunk (c : String) (d : Bool) :
    jsContent (mkChunk c d) = some (.str c) := rfl

theorem jsGet_done_mkChunk (c : String) (d : Bool) :
    jsGet (mkChunk c d) "done" = some (.bool d) := rfl

/-- C6: the gateway first attempts to parse the whole body as one JSON
document and answers from its message content; only on failure does it fall
back to line-by-line assembly, concatenating the string content fragments
strictly in arrival order and stopping at the first fragment whose `done`
flag is `true`; if nothing was assembled it fails with the gateway error;
and three fragments `"\x7b\"amount\""`, `":100\x7d"` and a final empty one
with `done: true` assemble to `"\x7b\"amount\":100\x7d"`. -/
theorem C6_gateway_assembly :
    (∀ (parse : String → Option Js) (body : String) (obj : Js),
        parse body = some obj →
        ollamaChatText parse body = .ok (contentText (jsContent obj)))
  ∧ (∀ (parse : String → Option Js) (ps : List (String × String)) (acc : String),
        (∀ p ∈ ps, parse p.1 = some (mkChunk p.2 false)) →
        assembleLines parse (ps.map Prod.fst) acc
          = acc ++ String.join (ps.map Prod.snd))
  ∧ (∀ (parse : String → Option Js) (l : String) (chunk : Js)
        (ls : List String) (acc : String),
        parse l = some chunk →
        jsGet chunk "done" = some (.bool true) →
        assembleLines parse (l :: ls) acc = assembleLines parse [l] acc)
  ∧ (∀ (parse : String → Option Js) (body : String),
        parse body = none →
        assembleLines parse
          (((splitLines body.data).map (fun l => (⟨l⟩ : String))).filter
            (fun l => l ≠ "")) "" = "" →
        ollamaChatText parse body
          = .error "Failed to assemble model output from NDJSON stream")
  ∧ (∀ (parse : String → Option Js) (body l1 l2 l3 : String),
        parse body = none →
        ((splitLines body.data).map (fun l => (⟨l⟩ : String))).filter (fun l => l ≠ "")
          = [l1, l2, l3] →
        parse l1 = some (mkChunk "\x7b\"amount\"" false) →
        parse l2 = some (mkChunk ":100\x7d" false) →
        parse l3 = some (mkChunk "" true) →
        ollamaChatText parse body = .ok "\x7b\"amount\":100\x7d") := by
  refine ⟨?_, ?_, ?_, ?_, ?_⟩
  · intro parse body obj h
    simp [ollamaChatText, h]
  · intro parse ps
    induction ps with
    | nil => intro acc h; simp [assembleLines, String.join]
    | cons p ps ih =>
      intro acc h
      obtain ⟨l, c⟩ := p
      have hl := h ⟨l, c⟩ (List.mem_cons_self _ _)
      simp only at hl
      simp only [List.map_cons, assembleLines, hl, jsContent_mkChunk, jsGet_done_mkChunk]
      rw [ih (acc ++ c) (fun q hq => h q (List.mem_cons_of_mem _ hq))]
      simp only [String.join, List.foldl]
      have hc : (c : String) = c ++ "" := by simp
      rw [String.append_assoc]
      congr 1
      conv_rhs => rw [show ("" ++ c : String) = c ++ "" by simp]
      rw [strFoldlAppend]
  · intro parse l chunk ls acc hl hdone
    simp [assembleLines, hl, hdone]
  · intro parse body hbody hempty
    simp only [ollamaChatText, hbody, hempty, if_pos]
  · intro parse body l1 l2 l3 hbody hlines h1 h2 h3
    simp only [ollamaChatText, hbody, hlines, assembleLines, h1, h2, h3,
      jsContent_mkChunk, jsGet_done_mkChunk]
    decide

/-- Witness for C6: `parseStub` on the body `"line1\nline2\nline3"`
realizes the three-fragment assembly example; the whole-body branch on a
trivially parsing body; the stop-at-done step at `"line3"`. -/
theorem C6_gateway_assembly_witness :
    (parseStub "line1\nline2\nline3" = none
      ∧ ((splitLines ("line1\nline2\nline3" : String).data).map
          (fun l => (⟨l⟩ : String))).filter (fun l => l ≠ "") = ["line1", "line2", "line3"]
      ∧ ollamaChatText parseStub "line1\nline2\nline3" = .ok "\x7b\"amount\":100\x7d")
  ∧ ((fun _ => some (mkChunk "hello" false) : String → Option Js) "whole body"
        = some (mkChunk "hello" false)
      ∧ ollamaChatText (fun _ => some (mkChunk "hello" false)) "whole body"
        = .ok (contentText (jsContent (mkChunk "hello" false))))
  ∧ (parseStub "line3" = some (mkChunk "" true)
      ∧ jsGet (mkChunk "" true) "done" = some (.bool true)
      ∧ assembleLines parseStub ["line3", "line9"] "acc"
        = assembleLines parseStub ["line3"] "acc") :=
  ⟨⟨rfl, by decide,
    C6_gateway_assembly.2.2.2.2 parseStub "line1\nline2\nline3" "line1" "line2" "line3"
      rfl (by decide) rfl rfl rfl⟩,
   ⟨rfl,
    C6_gateway_assembly.1 (fun _ => some (mkChunk "hello" false)) "whole body"
      (mkChunk "hello" false) rfl⟩,
   ⟨rfl, rfl,
    C6_gateway_assembly.2.2.1 parseStub "line3" (mkChunk "" true) ["line9"] "acc"
      rfl rfl⟩⟩

theorem deltaSum_nil : deltaSum [] = 0 := rfl

theorem deltaSum_cons (c : Char) (l : List Char) :
    deltaSum (c :: l) = braceDelta c + deltaSum l := by
  simp [deltaSum]

theorem scanBrace_none_iff : ∀ (cs : List Char) (depth : Int),
    scanBrace cs depth = none ↔
      ∀ k : Nat, 0 < k → k ≤ cs.length → depth + deltaSum (cs.take k) ≠ 0 := by
  intro cs
  induction cs with
  | nil =>
    intro depth
    constructor
    · intro _ k hk hk2
      simp at hk2
      omega
    · intro _
      rfl
  | cons c rest ih =>
    intro depth
    by_cases hd : depth + braceDelta c = 0
    · constructor
      · intro h
        exfalso
        simp [scanBrace, hd] at h
      · intro h
        exfalso
        have h1 : depth + deltaSum ((c :: rest).take 1) = 0 := by
          simp [List.take_succ_cons, deltaSum_cons, deltaSum_nil]
          omega
        exact h 1 (by omega) (by simp) h1
    · have hu : scanBrace (c :: rest) depth
          = (scanBrace rest (depth + braceDelta c)).map (fun tail => c :: tail) := by
        simp [scanBrace, hd]
      rw [hu, Option.map_eq_none', ih (depth + braceDelta c)]
      constructor
      · intro h k hk hk2
        match k, hk with
        | 1, _ =>
          intro hzero
          apply hd
          simpa [List.take_succ_cons, List.take_zero, deltaSum_cons, deltaSum_nil]
            using hzero
        | Nat.succ (Nat.succ j), _ =>
          have hlen : j + 1 ≤ rest.length := by
            simp at hk2
            omega
          have hj := h (j + 1) (by omega) hlen
          intro hzero
          apply hj
          rw [List.take_succ_cons, deltaSum_cons] at hzero
          omega
      · intro h k hk hk2
        have hck := h (k + 1) (by omega) (by simp; omega)
        rw [List.take_succ_cons, deltaSum_cons] at hck
        intro hzero
        apply hck
        omega

theorem scanBrace_some : ∀ (cs : List Char) (depth : Int) (k : Nat),
    0 < k → k ≤ cs.length →
    depth + deltaSum (cs.take k) = 0 →
    (∀ j : Nat, 0 < j → j < k → depth + deltaSum (cs.take j) ≠ 0) →
    scanBrace cs depth = some (cs.take k) := by
  intro cs
  induction cs with
  | nil =>
    intro depth k hk hk2 _ _
    simp at hk2
    omega
  | cons c rest ih =>
    intro depth k hk hk2 hzero hmin
    by_cases hd : depth + braceDelta c = 0
    · have hk1 : k = 1 := by
        by_contra hne
        apply hmin 1 (by omega) (by omega)
        simp [List.take_succ_cons, deltaSum_cons, deltaSum_nil]
        omega
      subst hk1
      simp [scanBrace, hd, List.take_succ_cons]
    · match k, hk with
      | 1, _ =>
        exfalso
        apply hd
        simpa [List.take_succ_cons, List.take_zero, deltaSum_cons, deltaSum_nil]
          using hzero
      | Nat.succ (Nat.succ j), _ =>
        have h1 : 0 < j + 1 := by omega
        have h2 : j + 1 ≤ rest.length := by
          simp at hk2
          omega
        have h3 : depth + braceDelta c + deltaSum (rest.take (j + 1)) = 0 := by
          rw [List.take_succ_cons, deltaSum_cons] at hzero
          omega
        have h4 : ∀ i : Nat, 0 < i → i < j + 1 →
            depth + braceDelta c + deltaSum (rest.take i) ≠ 0 := by
          intro i hi hij
          have hmi := hmin (i + 1) (by omega) (by omega)
          rw [List.take_succ_cons, deltaSum_cons] at hmi
          intro hcontra
          apply hmi
          omega
        have hrec := ih (depth + braceDelta c) (j + 1) h1 h2 h3 h4
        simp [scanBrace, hd, hrec, List.take_succ_cons]

theorem extractFirstJsonObjectString_spec (s : String) :
    (lbrace ∉ s.data →
        extractFirstJsonObjectString s = .error "No '\x7b' found in model output")
  ∧ (∀ suffix : List Char, suffix = s.data.dropWhile (fun c => c ≠ lbrace) →
      lbrace ∈ s.data →
        ((∀ k : Nat, 0 < k → k ≤ suffix.length → deltaSum (suffix.take k) ≠ 0) →
            extractFirstJsonObjectString s
              = .error "Unterminated JSON object in model output")
        ∧ (∀ k : Nat, 0 < k → k ≤ suffix.length → deltaSum (suffix.take k) = 0 →
            (∀ j : Nat, 0 < j → j < k → deltaSum (suffix.take j) ≠ 0) →
            extractFirstJsonObjectString s = .ok ⟨suffix.take k⟩)) := by
  constructor
  · intro hnot
    have hnil : s.data.dropWhile (fun c => c ≠ lbrace) = [] := by
      rw [List.dropWhile_eq_nil_iff]
      intro x hx
      simp only [decide_eq_true_eq]
      intro hxeq
      exact hnot (hxeq ▸ hx)
    unfold extractFirstJsonObjectString
    simp only [hnil]
    rfl
  · intro suffix hsuf hmem
    have hne : suffix ≠ [] := by
      rw [hsuf]
      intro hnil
      rw [List.dropWhile_eq_nil_iff] at hnil
      have := hnil lbrace hmem
      simp at this
    have hempty : suffix.isEmpty = false := by
      cases suffix with
      | nil => exact absurd rfl hne
      | cons a l => rfl
    constructor
    · intro hnever
      have hnone : scanBrace suffix 0 = none := by
        rw [scanBrace_none_iff]
        intro k hk hk2
        have := hnever k hk hk2
        omega
      unfold extractFirstJsonObjectString
      rw [← hsuf]
      simp [hempty, hnone]
    · intro k hk hk2 hzero hmin
      have hsome : scanBrace suffix 0 = some (suffix.take k) := by
        apply scanBrace_some suffix 0 k hk hk2
        · omega
        · intro j hj hjk
          have := hmin j hj hjk
          omega
      unfold extractFirstJsonObjectString
      rw [← hsuf]
      simp [hempty, hsome]

/-- C7: the parser strips an optional code fence, trims, tries a direct
parse, and only on failure locates the first `\x7b` and tracks brace depth,
parsing exactly the balanced substring; extraction fails exactly when the
stripped text has no `\x7b` (the no-brace error) or the depth never returns
to zero (the unterminated error); and on the fenced five-key example the
parser recovers exactly the five-key object, ignoring the prose. -/
theorem C7_response_parsing :
    (∀ (parse : String → Option Js) (text : String) (v : Js),
        parse (trimStr (stripCodeFences text)) = some v →
        parseModelJsonFromText parse text = .ok v)
  ∧ (∀ (parse : String → Option Js) (text : String) (objStr : String),
        parse (trimStr (stripCodeFences text)) = none →
        extractFirstJsonObjectString (trimStr (stripCodeFences text)) = .ok objStr →
        parseModelJsonFromText parse text
          = (match parse objStr with
             | some v => Except.ok v
             | none => Except.error "SyntaxError: Unexpected token in JSON"))
  ∧ (∀ (parse : String → Option Js) (text : String) (e : String),
        parse (trimStr (stripCodeFences text)) = none →
        extractFirstJsonObjectString (trimStr (stripCodeFences text)) = .error e →
        parseModelJsonFromText parse text = .error e)
  ∧ (∀ s : String,
      (lbrace ∉ s.data →
          extractFirstJsonObjectString s = .error "No '\x7b' found in model output")
      ∧ (∀ suffix : List Char, suffix = s.data.dropWhile (fun c => c ≠ lbrace) →
          lbrace ∈ s.data →
            ((∀ k : Nat, 0 < k → k ≤ suffix.length → deltaSum (suffix.take k) ≠ 0) →
                extractFirstJsonObjectString s
                  = .error "Unterminated JSON object in model output")
            ∧ (∀ k : Nat, 0 < k → k ≤ suffix.length → deltaSum (suffix.take k) = 0 →
                (∀ j : Nat, 0 < j → j < k → deltaSum (suffix.take j) ≠ 0) →
                extractFirstJsonObjectString s = .ok ⟨suffix.take k⟩)))
  ∧ (trimStr (stripCodeFences c7Text) = fiveKeyJson
      ∧ (∀ (parse : String → Option Js) (v : Js), parse fiveKeyJson = some v →
          parseModelJsonFromText parse c7Text = .ok v)) := by
  have hstrip : trimStr (stripCodeFences c7Text) = fiveKeyJson := by
    set_option maxRecDepth 8000 in decide
  refine ⟨?_, ?_, ?_, extractFirstJsonObjectString_spec, hstrip, ?_⟩
  · intro parse text v h
    simp [parseModelJsonFromText, h]
  · intro parse text objStr h hex
    simp [parseModelJsonFromText, h, hex]
  · intro parse text e h hex
    simp [parseModelJsonFromText, h, hex]
  · intro parse v h
    simp [parseModelJsonFromText, hstrip, h]

/-- Witness for C7 at concrete inputs: `parseStub7` on the fenced example
text recovers the five-key object; a text without braces raises the
no-brace error; `"a\x7bb"` raises the unterminated error; `"x\x7bab\x7dy"`
extracts exactly `"\x7bab\x7d"`. -/
theorem C7_response_parsing_witness :
    (parseStub7 fiveKeyJson = some fiveKeyValue
      ∧ parseModelJsonFromText parseStub7 c7Text = .ok fiveKeyValue)
  ∧ (lbrace ∉ ("no json here" : String).data
      ∧ extractFirstJsonObjectString "no json here"
          = .error "No '\x7b' found in model output")
  ∧ extractFirstJsonObjectString "a\x7bb"
      = .error "Unterminated JSON object in model output"
  ∧ extractFirstJsonObjectString "x\x7bab\x7dy" = .ok ⟨("\x7bab\x7dy" : String).data.take 4⟩ :=
  ⟨⟨rfl, (C7_response_parsing.2.2.2.2.2) parseStub7 fiveKeyValue rfl⟩,
   ⟨by decide, (C7_response_parsing.2.2.2.1 "no json here").1 (by decide)⟩,
   ((C7_response_parsing.2.2.2.1 "a\x7bb").2 ("\x7bb" : String).data (by decide) (by decide)).1
     (by
       intro k h1 h2
       have hk : k ≤ 2 := by simpa using h2
       interval_cases k <;> decide),
   ((C7_response_parsing.2.2.2.1 "x\x7bab\x7dy").2 ("\x7bab\x7dy" : String).data
       (by decide) (by decide)).2 4 (by omega) (by decide) (by decide)
     (by
       intro j h1 h2
       interval_cases j <;> decide)⟩

end Ingest
